import Mathlib

/-!
Verification development for the pizza-shop analysis scripts
(`shop_analysis.py` and `extended_analysis.py`).

The pure core of both scripts is embedded below: the aggregator-domain
classifier `classify_website`, the record loader `read_shops_from_excel`
(modelled over an explicit workbook value, with pandas behaviour made
explicit), the per-entity orchestration loop of `analyse_shops` (network
effects abstracted as oracle functions, with an explicit call log), and
the message composer `generate_messages`.
-/

namespace PizzaShop

/-- A spreadsheet cell: `none` models a missing value (a pandas NaN). -/
abbrev Cell := Option String

/-- Lower-case a string character by character, as the Python lower method
does on ASCII input. -/
def strLower (s : String) : String := String.mk (s.data.map Char.toLower)

/-- Boolean suffix test on strings, as the Python endswith method. -/
def endsWithStr (s t : String) : Bool := t.data.isSuffixOf s.data

/-- Boolean test on strings: t occurs at the start of s. -/
def startsWithStr (s t : String) : Bool := t.data.isPrefixOf s.data

/-- The THIRD_PARTY_DOMAINS set of the source, in source order. The source
lists postmates.com twice; a Python set collapses the duplicate, which does
not change any membership or suffix test. -/
def THIRD_PARTY_DOMAINS : List String :=
  ["doordash.com", "grubhub.com", "ubereats.com", "seamless.com",
   "postmates.com", "slicelife.com", "slicelife.onelink.me",
   "postmates.com", "bestcafes.online"]

/-- Characters allowed in a URL scheme after the first character (letters,
digits, plus, minus, dot), following the urllib scheme character table. -/
def schemeChar (c : Char) : Bool :=
  c.isAlpha || c.isDigit || c == '+' || c == '-' || c == '.'

/-- Remove a leading scheme and its colon from the character list when a
valid scheme is present, following the urllib scheme detection: the text
before the first colon must be non-empty, start with a letter and consist
of scheme characters only. -/
def removeScheme (l : List Char) : List Char :=
  let before := l.takeWhile (fun c => c != ':')
  if before.length < l.length && !before.isEmpty &&
      (before.headD ' ').isAlpha && before.all schemeChar then
    l.drop (before.length + 1)
  else l

/-- The netloc (host) component of a URL, following urllib urlsplit: after
removing the scheme, a netloc is present exactly when the remainder starts
with two slashes, and it extends to the next slash, question mark or hash. -/
def netlocRaw (url : String) : String :=
  match removeScheme url.data with
  | '/' :: '/' :: tail =>
      String.mk (tail.takeWhile (fun c => c != '/' && c != '?' && c != '#'))
  | _ => ""

/-- The netloc together with the bracket validity check of urlsplit: a
netloc holding one square bracket without the other makes urlparse raise
ValueError, modelled as `none`. -/
def netlocExc (url : String) : Option String :=
  let nl := netlocRaw url
  if (nl.data.contains '[' && !nl.data.contains ']') ||
     (nl.data.contains ']' && !nl.data.contains '[') then none
  else some nl

/-- Is this character removed by the Python call lstrip applied with the
argument "www.", i.e. is it a member of the character set of that argument
(the letter w and the dot). -/
def wwwChar (c : Char) : Bool := c == 'w' || c == '.'

/-- The domain normalisation performed inside classify_website: lower-case,
then the Python lstrip call with argument "www.", which drops ALL leading
characters drawn from the set of characters of "www.". -/
def normalizeDomain (nl : String) : String :=
  String.mk ((strLower nl).data.dropWhile wwwChar)

/-- Does the domain end with one of the third-party aggregator domains. -/
def isThirdParty (domain : String) : Bool :=
  THIRD_PARTY_DOMAINS.any (fun third => endsWithStr domain third)

/-- classify_website from the source: (has_website, direct_ordering). An
absent or empty website gives (false, false); a website whose parse raises
gives (true, false); otherwise the normalised host is matched against the
aggregator suffixes. -/
def classify_website (website : Option String) : Bool × Bool :=
  match website with
  | none => (false, false)
  | some w =>
    if w = "" then (false, false)
    else
      match netlocExc w with
      | none => (true, false)
      | some nl =>
        if isThirdParty (normalizeDomain nl) then (true, false)
        else (true, true)

/-- Modelled from the words of the spec, for comparison with the source:
remove only the literal four-character leading "www." from the host. -/
def literalStripWww (s : String) : String :=
  if startsWithStr s "www." then String.mk (s.data.drop 4) else s

/-- Spec-side domain normalisation: lower-case then literal "www." removal. -/
def specNormalizeDomain (nl : String) : String := literalStripWww (strLower nl)

/-- Spec-side classifier variant using the literal "www." removal in place
of the generic character trim; identical to the source otherwise. -/
def classify_website_literal (website : Option String) : Bool × Bool :=
  match website with
  | none => (false, false)
  | some w =>
    if w = "" then (false, false)
    else
      match netlocExc w with
      | none => (true, false)
      | some nl =>
        if isThirdParty (specNormalizeDomain nl) then (true, false)
        else (true, true)

/-! ## Record loader -/

/-- A row of a sheet: an association list from column name to cell. -/
abbrev Row := List (String × Cell)

/-- A sheet of the workbook: the column names and the rows. -/
structure Frame where
  cols : List String
  rows : List Row
deriving DecidableEq, Repr

/-- Value of a named column in a row: a missing column and a missing value
both give none (pandas NaN). -/
def rowGet (r : Row) (c : String) : Cell := (r.lookup c).join

/-- The column rename mapping of read_shops_from_excel. -/
def renameCol (c : String) : String :=
  if c == "Shop ID" then "ShopID"
  else if c == "Account Name" then "AccountName"
  else if c == "Billing City" then "BillingCity"
  else if c == "Billing Zip/Postal Code" then "BillingZip"
  else c

/-- Rename the columns of a frame (names and row keys). -/
def renameFrame (f : Frame) : Frame :=
  { cols := f.cols.map renameCol,
    rows := f.rows.map (fun r => r.map (fun p => (renameCol p.1, p.2))) }

/-- The canonical column names the loader keeps, in selection order. -/
def canonCols : List String := ["ShopID", "AccountName", "BillingCity", "BillingZip"]

/-- Restrict a row to the four canonical columns, in order. -/
def restrictRow (r : Row) : Row := canonCols.map (fun c => (c, rowGet r c))

/-- The column subsetting step of the source. The source builds the column
selection list with entries that are the canonical name when the column is
present and the Python None when it is absent; indexing a frame with a list
holding None raises KeyError. So the selection succeeds exactly when all
four canonical columns are present after renaming. -/
def subsetColumns (f : Frame) : Except String Frame :=
  if canonCols.all (fun c => f.cols.contains c) then
    .ok { cols := canonCols, rows := f.rows.map restrictRow }
  else .error "KeyError: [None] not in index"

/-- Keep rows where at least one kept cell is present (dropna with how equal
to all). -/
def dropAllNa (rows : List Row) : List Row :=
  rows.filter (fun r => r.any (fun p => p.2.isSome))

/-- Process one sheet: rename the columns, subset to the canonical columns,
drop fully missing rows. -/
def processSheet (f : Frame) : Except String (List Row) :=
  (subsetColumns (renameFrame f)).map (fun g => dropAllNa g.rows)

/-- A workbook: named sheets in workbook order. -/
abbrev Workbook := List (String × Frame)

/-- The fixed sheet list of the loader. -/
def sheetNames : List String := ["All", "Multi Location Shops", "OO Partners"]

/-- Walk the fixed sheet list, silently skipping absent sheets and cleaning
each present one. -/
def gatherSheets (wb : Workbook) : List String → Except String (List (List Row))
  | [] => .ok []
  | s :: rest =>
    match wb.lookup s with
    | none => gatherSheets wb rest
    | some f => do
      let cleaned ← processSheet f
      let more ← gatherSheets wb rest
      .ok (cleaned :: more)

/-- Concatenate the per-sheet row lists; pandas concat raises ValueError
when given no frames at all. -/
def concatSheets (wb : Workbook) : Except String (List Row) :=
  match gatherSheets wb sheetNames with
  | .error e => .error e
  | .ok dfs =>
    if dfs.isEmpty then .error "ValueError: No objects to concatenate"
    else .ok dfs.flatten

/-- The dedup key: the AccountName cell of a row (two missing names count as
equal, as pandas duplicated does for NaN). -/
def nameKey (r : Row) : Cell := rowGet r "AccountName"

/-- Worker for the dedup: keep a row when its key was not seen before. -/
def dropDupGo (seen : List Cell) : List Row → List Row
  | [] => []
  | r :: rest =>
    if nameKey r ∈ seen then dropDupGo seen rest
    else r :: dropDupGo (nameKey r :: seen) rest

/-- pandas drop_duplicates on the AccountName column with the default keep
equal to first: keep the first occurrence of each key, order preserved. -/
def drop_duplicates (rows : List Row) : List Row := dropDupGo [] rows

/-- read_shops_from_excel: gather the fixed sheets, concatenate, dedup by
AccountName. -/
def read_shops_from_excel (wb : Workbook) : Except String (List Row) :=
  (concatSheets wb).map drop_duplicates

/-! ## Orchestrator -/

/-- One line of the classification output file. -/
structure OutputRow where
  shopID : Cell
  accountName : Cell
  billingCity : Cell
  billingZip : Cell
  website : Option String
  hasWebsite : Bool
  directOrdering : Bool
  note : String
deriving DecidableEq, Repr

/-- A network round trip made by the orchestrator. -/
inductive ApiCall where
  | findPlace (query : String)
  | placeDetails (placeId : String)
deriving DecidableEq, Repr

/-- The two remote lookups, abstracted: findPlace models
query_google_places (none on no candidate or any swallowed failure),
placeDetails models get_place_details (the website and url fields, each
possibly absent, both absent on any swallowed failure). -/
structure Network where
  findPlace : String → Option String
  placeDetails : String → Option String × Option String

/-- Python truthiness of an optional string (None and the empty string are
falsy). -/
def truthy (o : Option String) : Bool :=
  match o with
  | none => false
  | some s => if s = "" then false else true

/-- Interpolation of a cell into the query text: a missing value is a
pandas NaN and renders as the text nan. -/
def cellStr (c : Cell) : String :=
  match c with
  | some s => s
  | none => "nan"

/-- The query built by analyse_shops: name, city (empty when missing), and
the fixed region qualifier MA. -/
def buildQuery (name city : Cell) : String :=
  cellStr name ++ ", " ++ (match city with | some c => c | none => "") ++ ", MA"

/-- The per-entity body of the analyse_shops loop: returns the output row
and the list of network calls made for this entity, in order. -/
def processRow (apiKey : Option String) (net : Network) (r : Row) :
    OutputRow × List ApiCall :=
  let shopID := rowGet r "ShopID"
  let accountName := rowGet r "AccountName"
  let city := rowGet r "BillingCity"
  let zipc := rowGet r "BillingZip"
  if truthy apiKey then
    let query := buildQuery accountName city
    let pid := net.findPlace query
    if truthy pid then
      let p := pid.getD ""
      let w := (net.placeDetails p).1
      let cls := classify_website w
      let note :=
        if !cls.1 then "No website"
        else if !cls.2 then "Website appears to be third‑party ordering"
        else ""
      ({ shopID := shopID, accountName := accountName, billingCity := city,
         billingZip := zipc, website := w, hasWebsite := cls.1,
         directOrdering := cls.2, note := note },
       [.findPlace query, .placeDetails p])
    else
      ({ shopID := shopID, accountName := accountName, billingCity := city,
         billingZip := zipc, website := none, hasWebsite := false,
         directOrdering := false, note := "Place not found" },
       [.findPlace query])
  else
    ({ shopID := shopID, accountName := accountName, billingCity := city,
       billingZip := zipc, website := none, hasWebsite := false,
       directOrdering := false, note := "API key not provided" },
     [])

/-- analyse_shops: read the workbook, then per row perform the lookups and
the classification; returns the output rows together with the concatenated
network call log. -/
def analyse_shops (apiKey : Option String) (net : Network) (wb : Workbook) :
    Except String (List OutputRow × List ApiCall) :=
  (read_shops_from_excel wb).map (fun rows =>
    let results := rows.map (processRow apiKey net)
    (results.map Prod.fst, (results.map Prod.snd).flatten))

/-! ## Message composer (extended variant) -/

/-- generate_messages from the extended script: selects one of three fixed
templates by case on (has_website, direct_ordering) and interpolates the
account name into the salutation and the SMS body. -/
def generate_messages (account_name : String)
    (has_website direct_ordering : Bool) : String × String × String :=
  let salutation := "Hi " ++ account_name ++ ","
  if !has_website then
    ("Grow your pizzeria with a custom website and phone ordering",
     salutation ++ "\n\n" ++
       "I noticed your pizzeria doesn’t have a website listed online. " ++
       "With Slice, you can get a tailor‑made website and a phone ordering " ++
       "solution that puts you in control of your customer relationships. " ++
       "Our platform even offers discounted delivery and a pizzeria‑specific POS system to help you run your business more smoothly.",
     account_name ++
       ": We can build you a custom website and phone ordering " ++
       "solution through Slice, plus discounted delivery and a POS built for pizzerias.")
  else if has_website && !direct_ordering then
    ("Boost profits with direct ordering and discounted delivery",
     salutation ++ "\n\n" ++
       "It looks like your current website relies on third‑party ordering apps. " ++
       "Slice lets you own the entire ordering experience with direct online and phone ordering. " ++
       "We provide integrated discounted delivery and a POS designed specifically for independent pizzerias, so you keep more margin and delight your customers.",
     account_name ++
       ": Let’s get you off third‑party apps. Slice offers direct online/phone ordering with discounted delivery and a pizzeria‑specific POS.")
  else
    ("Take your online presence further with Slice’s marketing & POS",
     salutation ++ "\n\n" ++
       "Great job having your own direct ordering! Slice can help you go even further " ++
       "with advanced advertising services, a powerful owner’s app, and a POS built for pizzerias. " ++
       "We also host pizzeria‑owner events and provide industry reports to help you stay ahead.",
     account_name ++
       ": You’re already direct—let’s accelerate growth. Slice offers marketing, a custom POS, and owner resources just for pizzerias.")

/-- Does pat occur as a contiguous substring of l. -/
def hasSubList (pat : List Char) : List Char → Bool
  | [] => pat.isEmpty
  | c :: t => pat.isPrefixOf (c :: t) || hasSubList pat t

/-- Does pat occur as a contiguous substring of s. -/
def containsSub (s pat : String) : Bool := hasSubList pat.data s.data

/-! ## Lemmas about the classifier -/

/-- The classifier takes exactly one of three values. -/
theorem classify_cases (w : Option String) :
    classify_website w = (false, false) ∨ classify_website w = (true, false) ∨
    classify_website w = (true, true) := by
  rcases w with _ | s
  · exact Or.inl rfl
  · simp only [classify_website]
    split
    · exact Or.inl rfl
    · split
      · exact Or.inr (Or.inl rfl)
      · split
        · exact Or.inr (Or.inl rfl)
        · exact Or.inr (Or.inr rfl)

/-- Skipping one stripped leading character of the searched list does not
change a suffix test whose pattern starts with a character that the strip
never removes. -/
theorem suffix_skip (b : Char) (a : List Char) (c : Char) (t : List Char)
    (hb : wwwChar b = false) (hc : wwwChar c = true) :
    (b :: a).isSuffixOf (c :: t) = (b :: a).isSuffixOf t := by
  rw [← Bool.coe_iff_coe]
  simp only [List.isSuffixOf_iff_suffix, List.suffix_cons_iff]
  constructor
  · rintro (he | hs)
    · exfalso
      have hbc : b = c := by injection he
      rw [hbc, hc] at hb
      exact Bool.noConfusion hb
    · exact hs
  · exact Or.inr

/-- No aggregator domain starts with a character that the www strip removes
(the default head makes the statement also force non-emptiness). -/
theorem agg_heads : ∀ s ∈ THIRD_PARTY_DOMAINS, wwwChar (s.data.headD '.') = false := by
  decide

/-- Skipping one stripped leading character does not change the aggregator
suffix disjunction, for any domain list whose members start with characters
the strip never removes. -/
theorem any_suffix_skip_gen (ds : List String)
    (hds : ∀ s ∈ ds, wwwChar (s.data.headD '.') = false)
    (c : Char) (hc : wwwChar c = true) (t : List Char) :
    (ds.any fun s => s.data.isSuffixOf (c :: t)) =
    (ds.any fun s => s.data.isSuffixOf t) := by
  induction ds with
  | nil => rfl
  | cons d ds ih =>
    have hd := hds d (List.mem_cons_self d ds)
    have hrest : ∀ s ∈ ds, wwwChar (s.data.headD '.') = false :=
      fun s hs => hds s (List.mem_cons_of_mem _ hs)
    simp only [List.any_cons, ih hrest]
    congr 1
    rcases hdd : d.data with _ | ⟨b, a⟩
    · rw [hdd] at hd
      simp only [List.headD_nil] at hd
      exact absurd hd (by decide)
    · rw [hdd] at hd
      simp only [List.headD_cons] at hd
      exact suffix_skip b a c t hd hc

/-- The aggregator suffix test is unchanged by the generic leading-character
trim of the source. -/
theorem any_suffix_dropWhile (l : List Char) :
    (THIRD_PARTY_DOMAINS.any fun s => s.data.isSuffixOf (l.dropWhile wwwChar)) =
    (THIRD_PARTY_DOMAINS.any fun s => s.data.isSuffixOf l) := by
  induction l with
  | nil => rfl
  | cons c t ih =>
    by_cases hc : wwwChar c = true
    · rw [List.dropWhile_cons_of_pos hc, ih,
        any_suffix_skip_gen THIRD_PARTY_DOMAINS agg_heads c hc t]
    · rw [List.dropWhile_cons_of_neg hc]

/-- Unfolding the suffix test on an explicitly built string. -/
theorem isThirdParty_mk (l : List Char) :
    isThirdParty (String.mk l) =
    (THIRD_PARTY_DOMAINS.any fun s => s.data.isSuffixOf l) := rfl

/-- The source normalisation and the raw lowered host agree on the
aggregator suffix test. -/
theorem isThirdParty_normalize (nl : String) :
    isThirdParty (normalizeDomain nl) =
    (THIRD_PARTY_DOMAINS.any fun s => s.data.isSuffixOf (strLower nl).data) := by
  rw [normalizeDomain, isThirdParty_mk, any_suffix_dropWhile]

/-- The spec-side literal strip and the raw lowered host agree on the
aggregator suffix test. -/
theorem isThirdParty_specNormalize (nl : String) :
    isThirdParty (specNormalizeDomain nl) =
    (THIRD_PARTY_DOMAINS.any fun s => s.data.isSuffixOf (strLower nl).data) := by
  rw [specNormalizeDomain, literalStripWww]
  by_cases h : startsWithStr (strLower nl) "www." = true
  · rw [if_pos h, isThirdParty_mk]
    have hp : "www.".data <+: (strLower nl).data :=
      List.isPrefixOf_iff_prefix.mp h
    obtain ⟨rest, hrest⟩ := hp
    have hdata : (strLower nl).data = 'w' :: 'w' :: 'w' :: '.' :: rest := by
      rw [← hrest]; rfl
    rw [hdata]
    show (THIRD_PARTY_DOMAINS.any fun s => s.data.isSuffixOf rest) = _
    rw [any_suffix_skip_gen _ agg_heads 'w' (by decide) ('w' :: 'w' :: '.' :: rest),
      any_suffix_skip_gen _ agg_heads 'w' (by decide) ('w' :: '.' :: rest),
      any_suffix_skip_gen _ agg_heads 'w' (by decide) ('.' :: rest),
      any_suffix_skip_gen _ agg_heads '.' (by decide) rest]
  · rw [if_neg h]
    rfl

/-- The classifier of the source and the spec-side literal-strip variant
agree on every input: the generic character trim cannot change a suffix
match against the aggregator set. -/
theorem classify_eq_literal (w : Option String) :
    classify_website w = classify_website_literal w := by
  rcases w with _ | s
  · rfl
  · simp only [classify_website, classify_website_literal]
    split
    · rfl
    · rcases netlocExc s with _ | nl
      · rfl
      · dsimp only
        rw [isThirdParty_normalize, ← isThirdParty_specNormalize]

/-- A host whose lowered form is exactly www.doordash.com is classified as
third-party (has a website, not direct). -/
theorem classify_doordash_host (w nl : String) (hn : netlocExc w = some nl)
    (hh : strLower nl = "www.doordash.com") :
    classify_website (some w) = (true, false) := by
  have hw : w ≠ "" := by
    intro he
    subst he
    rw [show netlocExc "" = some "" from rfl] at hn
    injection hn with h'
    rw [← h'] at hh
    exact absurd hh (by decide)
  have h3 : isThirdParty (normalizeDomain nl) = true := by
    rw [isThirdParty_normalize, hh]
    decide
  simp only [classify_website, if_neg hw, hn, h3, if_true]

/-! ## Lemmas about the record loader -/

/-- The dedup output is a sublist of its input (order preserved). -/
theorem dropDupGo_sublist (seen : List Cell) (l : List Row) :
    (dropDupGo seen l).Sublist l := by
  induction l generalizing seen with
  | nil => exact List.Sublist.refl []
  | cons r rest ih =>
    simp only [dropDupGo]
    split
    · exact List.Sublist.cons r (ih seen)
    · exact List.Sublist.cons₂ r (ih _)

/-- Every surviving row has an unseen key and is the first row of the input
carrying its key. -/
theorem dropDupGo_spec (seen : List Cell) (l : List Row) :
    ∀ r ∈ dropDupGo seen l, nameKey r ∉ seen ∧
      l.find? (fun x => nameKey x == nameKey r) = some r := by
  induction l generalizing seen with
  | nil => intro r hr; cases hr
  | cons x rest ih =>
    intro r hr
    simp only [dropDupGo] at hr
    by_cases hx : nameKey x ∈ seen
    · rw [if_pos hx] at hr
      obtain ⟨hns, hfind⟩ := ih seen r hr
      refine ⟨hns, ?_⟩
      have hne : (nameKey x == nameKey r) = false := by
        rw [beq_eq_false_iff_ne]
        intro hb
        exact hns (hb ▸ hx)
      rw [List.find?_cons, hne]
      exact hfind
    · rw [if_neg hx] at hr
      cases hr with
      | head =>
        refine ⟨hx, ?_⟩
        rw [List.find?_cons, beq_self_eq_true (nameKey x)]
      | tail _ hr =>
        obtain ⟨hns, hfind⟩ := ih (nameKey x :: seen) r hr
        have hxr : (nameKey x == nameKey r) = false := by
          rw [beq_eq_false_iff_ne]
          intro hb
          exact hns (hb ▸ List.mem_cons_self _ _)
        refine ⟨fun hmem => hns (List.mem_cons_of_mem _ hmem), ?_⟩
        rw [List.find?_cons, hxr]
        exact hfind

/-- The dedup output carries pairwise distinct keys. -/
theorem dropDupGo_nodup (seen : List Cell) (l : List Row) :
    ((dropDupGo seen l).map nameKey).Nodup := by
  induction l generalizing seen with
  | nil => exact List.nodup_nil
  | cons x rest ih =>
    simp only [dropDupGo]
    split
    · exact ih seen
    · simp only [List.map_cons, List.nodup_cons]
      refine ⟨?_, ih _⟩
      intro hmem
      obtain ⟨r, hr, hkey⟩ := List.mem_map.mp hmem
      have hns := (dropDupGo_spec _ _ r hr).1
      exact hns (by rw [hkey]; exact List.mem_cons_self _ _)

/-- Every unseen key of the input survives the dedup. -/
theorem dropDupGo_covers (seen : List Cell) (l : List Row) (k : Cell)
    (hk : k ∈ l.map nameKey) (hns : k ∉ seen) :
    k ∈ (dropDupGo seen l).map nameKey := by
  induction l generalizing seen with
  | nil => cases hk
  | cons x rest ih =>
    simp only [List.map_cons, List.mem_cons] at hk
    simp only [dropDupGo]
    split
    · rename_i hx
      rcases hk with hk | hk
      · exact absurd (hk ▸ hx) hns
      · exact ih seen hk hns
    · rename_i hx
      simp only [List.map_cons, List.mem_cons]
      rcases hk with hk | hk
      · exact Or.inl hk
      · by_cases hkx : k = nameKey x
        · exact Or.inl hkx
        · refine Or.inr (ih _ hk ?_)
          intro hmem
          rcases List.mem_cons.mp hmem with hmem | hmem
          · exact hkx hmem
          · exact hns hmem

/-! ## Lemmas about the orchestrator -/

/-- Decompose a successful analyse_shops run into the loaded base rows, the
mapped output rows and the concatenated call log. -/
theorem analyse_rows (apiKey : Option String) (net : Network) (wb : Workbook)
    (rows : List OutputRow) (log : List ApiCall)
    (h : analyse_shops apiKey net wb = .ok (rows, log)) :
    ∃ base, read_shops_from_excel wb = .ok base ∧
      rows = base.map (fun r => (processRow apiKey net r).1) ∧
      log = (base.map (fun r => (processRow apiKey net r).2)).flatten := by
  unfold analyse_shops at h
  rcases hr : read_shops_from_excel wb with e | base
  · rw [hr] at h
    exact Except.noConfusion h
  · rw [hr] at h
    simp only [Except.map, Except.ok.injEq] at h
    injection h with h1 h2
    refine ⟨base, rfl, ?_, ?_⟩
    · rw [← h1, List.map_map]
      rfl
    · rw [← h2, List.map_map]
      rfl

/-- The offline branch of the per-entity loop: fixed row, no calls. -/
theorem processRow_offline (apiKey : Option String) (net : Network) (r : Row)
    (hk : truthy apiKey = false) :
    processRow apiKey net r =
    ({ shopID := rowGet r "ShopID", accountName := rowGet r "AccountName",
       billingCity := rowGet r "BillingCity", billingZip := rowGet r "BillingZip",
       website := none, hasWebsite := false, directOrdering := false,
       note := "API key not provided" }, []) := by
  unfold processRow
  rw [hk]
  rfl

/-- The flag pair of an output row is either the all-false default or the
classifier value of its website field. -/
theorem processRow_flags (apiKey : Option String) (net : Network) (r : Row) :
    ((processRow apiKey net r).1.hasWebsite,
      (processRow apiKey net r).1.directOrdering) = (false, false) ∨
    ((processRow apiKey net r).1.hasWebsite,
      (processRow apiKey net r).1.directOrdering) =
      classify_website (processRow apiKey net r).1.website := by
  unfold processRow
  dsimp only
  split
  · split
    · exact Or.inr rfl
    · exact Or.inl rfl
  · exact Or.inl rfl

/-- Per-entity invariant: direct ordering implies a website. -/
theorem processRow_direct_implies_has (apiKey : Option String) (net : Network)
    (r : Row) (h : (processRow apiKey net r).1.directOrdering = true) :
    (processRow apiKey net r).1.hasWebsite = true := by
  rcases processRow_flags apiKey net r with hf | hf
  · have hd : (processRow apiKey net r).1.directOrdering = false := congrArg Prod.snd hf
    rw [h] at hd
    exact absurd hd (by decide)
  · rcases classify_cases ((processRow apiKey net r).1.website) with hc | hc | hc <;>
      rw [hc] at hf
    · have hd : (processRow apiKey net r).1.directOrdering = false := congrArg Prod.snd hf
      rw [h] at hd
      exact absurd hd (by decide)
    · have hd : (processRow apiKey net r).1.directOrdering = false := congrArg Prod.snd hf
      rw [h] at hd
      exact absurd hd (by decide)
    · exact congrArg Prod.fst hf

/-- When the produced row carries a website, its flags are the classifier
value of that website, and a third-party classification fixes the note. -/
theorem processRow_website (apiKey : Option String) (net : Network) (r : Row)
    (w : String) (hw : (processRow apiKey net r).1.website = some w) :
    (processRow apiKey net r).1.hasWebsite = (classify_website (some w)).1 ∧
    (processRow apiKey net r).1.directOrdering = (classify_website (some w)).2 ∧
    (classify_website (some w) = (true, false) →
      (processRow apiKey net r).1.note =
        "Website appears to be third‑party ordering") := by
  unfold processRow at hw ⊢
  dsimp only at hw ⊢
  by_cases h1 : truthy apiKey = true
  · rw [if_pos h1] at hw ⊢
    by_cases h2 : truthy (net.findPlace
        (buildQuery (rowGet r "AccountName") (rowGet r "BillingCity"))) = true
    · rw [if_pos h2] at hw ⊢
      dsimp only at hw ⊢
      rw [hw]
      refine ⟨rfl, rfl, ?_⟩
      intro hcls
      rw [hcls]
      rfl
    · rw [if_neg h2] at hw
      exact Option.noConfusion hw
  · rw [if_neg h1] at hw
    exact Option.noConfusion hw

/-! ## Concrete fixtures used by witnesses and counterexamples -/

/-- A small workbook: the All sheet holds Tony plus a fully empty row, the
OO Partners sheet holds a duplicate Tony and Maria. -/
def wbW : Workbook :=
  [("All",
    { cols := ["Shop ID", "Account Name", "Billing City", "Billing Zip/Postal Code"],
      rows := [[("Shop ID", some "1"), ("Account Name", some "Tony"),
                ("Billing City", some "Boston"),
                ("Billing Zip/Postal Code", some "02108")],
               [("Shop ID", none), ("Account Name", none),
                ("Billing City", none), ("Billing Zip/Postal Code", none)]] }),
   ("OO Partners",
    { cols := ["Shop ID", "Account Name", "Billing City", "Billing Zip/Postal Code"],
      rows := [[("Shop ID", some "2"), ("Account Name", some "Tony"),
                ("Billing City", some "Salem"),
                ("Billing Zip/Postal Code", none)],
               [("Shop ID", some "3"), ("Account Name", some "Maria"),
                ("Billing City", none),
                ("Billing Zip/Postal Code", none)]] })]

/-- The cleaned concatenation of the fixture workbook (before dedup). -/
def baseW : List Row :=
  [[("ShopID", some "1"), ("AccountName", some "Tony"),
    ("BillingCity", some "Boston"), ("BillingZip", some "02108")],
   [("ShopID", some "2"), ("AccountName", some "Tony"),
    ("BillingCity", some "Salem"), ("BillingZip", none)],
   [("ShopID", some "3"), ("AccountName", some "Maria"),
    ("BillingCity", none), ("BillingZip", none)]]

/-- The loaded rows of the fixture workbook (after dedup). -/
def rowsW : List Row :=
  [[("ShopID", some "1"), ("AccountName", some "Tony"),
    ("BillingCity", some "Boston"), ("BillingZip", some "02108")],
   [("ShopID", some "3"), ("AccountName", some "Maria"),
    ("BillingCity", none), ("BillingZip", none)]]

/-- An oracle that always finds a place whose details point at the doordash
store URL. -/
def netDoor : Network :=
  { findPlace := fun _ => some "pid1",
    placeDetails := fun _ => (some "https://www.doordash.com/store/123", none) }

/-- An oracle that always finds a place with a direct-ordering site. -/
def netDirect : Network :=
  { findPlace := fun _ => some "pid1",
    placeDetails := fun _ => (some "https://order.tonyspizza.com", none) }

/-- The Tony output row of the doordash run. -/
def rowDoorT : OutputRow :=
  { shopID := some "1", accountName := some "Tony",
    billingCity := some "Boston", billingZip := some "02108",
    website := some "https://www.doordash.com/store/123",
    hasWebsite := true, directOrdering := false,
    note := "Website appears to be third‑party ordering" }

/-- The Maria output row of the doordash run. -/
def rowDoorM : OutputRow :=
  { shopID := some "3", accountName := some "Maria",
    billingCity := none, billingZip := none,
    website := some "https://www.doordash.com/store/123",
    hasWebsite := true, directOrdering := false,
    note := "Website appears to be third‑party ordering" }

/-- The call log of the keyed fixture runs. -/
def logW : List ApiCall :=
  [.findPlace "Tony, Boston, MA", .placeDetails "pid1",
   .findPlace "Maria, , MA", .placeDetails "pid1"]

/-- The Tony output row of the direct-ordering run. -/
def rowDirT : OutputRow :=
  { shopID := some "1", accountName := some "Tony",
    billingCity := some "Boston", billingZip := some "02108",
    website := some "https://order.tonyspizza.com",
    hasWebsite := true, directOrdering := true, note := "" }

/-- The Maria output row of the direct-ordering run. -/
def rowDirM : OutputRow :=
  { shopID := some "3", accountName := some "Maria",
    billingCity := none, billingZip := none,
    website := some "https://order.tonyspizza.com",
    hasWebsite := true, directOrdering := true, note := "" }

/-- The Tony output row of the offline run. -/
def rowOffT : OutputRow :=
  { shopID := some "1", accountName := some "Tony",
    billingCity := some "Boston", billingZip := some "02108",
    website := none, hasWebsite := false, directOrdering := false,
    note := "API key not provided" }

/-- The Maria output row of the offline run. -/
def rowOffM : OutputRow :=
  { shopID := some "3", accountName := some "Maria",
    billingCity := none, billingZip := none,
    website := none, hasWebsite := false, directOrdering := false,
    note := "API key not provided" }

/-! ## Claim theorems -/

/-- Claim C1: for every OutputRow produced by the pipeline, with or without
an API key and for any enrichment oracle, DirectOrdering implies
HasWebsite; equivalently, classify_website never returns (false, true). -/
theorem C1_direct_implies_hasWebsite :
    (∀ w, classify_website w ≠ (false, true)) ∧
    (∀ (apiKey : Option String) (net : Network) (wb : Workbook)
        (rows : List OutputRow) (log : List ApiCall),
      analyse_shops apiKey net wb = .ok (rows, log) →
      ∀ r ∈ rows, r.directOrdering = true → r.hasWebsite = true) := by
  constructor
  · intro w hw
    rcases classify_cases w with h | h | h <;> rw [h] at hw <;> simp at hw
  · intro apiKey net wb rows log h r hr hdir
    obtain ⟨base, hb, hrows, hlog⟩ := analyse_rows apiKey net wb rows log h
    subst hrows
    obtain ⟨x, hx, hxe⟩ := List.mem_map.mp hr
    rw [← hxe] at hdir ⊢
    exact processRow_direct_implies_has apiKey net x hdir

/-- Witness for C1 at a concrete direct-ordering run. -/
theorem C1_direct_implies_hasWebsite_witness : rowDirT.hasWebsite = true :=
  C1_direct_implies_hasWebsite.2 (some "k") netDirect wbW [rowDirT, rowDirM]
    logW rfl rowDirT (List.mem_cons_self _ _) rfl

/-- Claim C2: classify_website is fully characterised by the aggregator
suffix test — absent or empty websites give (false, false); a parseable
website whose lower-cased, www-stripped host ends with an aggregator domain
gives (true, false); otherwise (true, true). -/
theorem C2_classifier_characterisation (w : Option String) :
    ((w = none ∨ w = some "") → classify_website w = (false, false)) ∧
    (∀ s nl, w = some s → s ≠ "" → netlocExc s = some nl →
      (isThirdParty (specNormalizeDomain nl) = true →
        classify_website w = (true, false)) ∧
      (isThirdParty (specNormalizeDomain nl) = false →
        classify_website w = (true, true))) := by
  constructor
  · rintro (rfl | rfl) <;> rfl
  · rintro s nl rfl hne hnl
    constructor
    · intro hagg
      have hcode : isThirdParty (normalizeDomain nl) = true := by
        rw [isThirdParty_normalize, ← isThirdParty_specNormalize, hagg]
      simp only [classify_website, if_neg hne, hnl, hcode, if_true]
    · intro hagg
      have hcode : isThirdParty (normalizeDomain nl) = false := by
        rw [isThirdParty_normalize, ← isThirdParty_specNormalize, hagg]
      simp only [classify_website, if_neg hne, hnl, hcode, Bool.false_eq_true,
        if_false]

/-- Witness for C2 at the doordash host. -/
theorem C2_classifier_characterisation_witness :
    classify_website (some "https://www.doordash.com") = (true, false) :=
  ((C2_classifier_characterisation (some "https://www.doordash.com")).2
    "https://www.doordash.com" "www.doordash.com" rfl (by decide) rfl).1
    (by decide)

/-- Claim C3: when no API credential is configured, every output row has an
empty website, both flags false and the fixed note, and no network call is
made for any entity. -/
theorem C3_offline_mode (apiKey : Option String) (net : Network)
    (wb : Workbook) (rows : List OutputRow) (log : List ApiCall)
    (hk : truthy apiKey = false)
    (h : analyse_shops apiKey net wb = .ok (rows, log)) :
    (∀ r ∈ rows, r.website = none ∧ r.hasWebsite = false ∧
      r.directOrdering = false ∧ r.note = "API key not provided") ∧
    log = [] := by
  obtain ⟨base, hb, hrows, hlog⟩ := analyse_rows apiKey net wb rows log h
  constructor
  · intro r hr
    rw [hrows] at hr
    obtain ⟨x, hx, hxe⟩ := List.mem_map.mp hr
    rw [← hxe, processRow_offline apiKey net x hk]
    exact ⟨rfl, rfl, rfl, rfl⟩
  · rw [hlog, List.flatten_eq_nil_iff]
    intro l hl
    obtain ⟨x, hx, hxe⟩ := List.mem_map.mp hl
    rw [← hxe, processRow_offline apiKey net x hk]

/-- Witness for C3 at the concrete offline run of the fixture workbook. -/
theorem C3_offline_mode_witness :
    (∀ r ∈ [rowOffT, rowOffM], r.website = none ∧ r.hasWebsite = false ∧
      r.directOrdering = false ∧ r.note = "API key not provided") ∧
    ([] : List ApiCall) = [] :=
  C3_offline_mode none netDoor wbW [rowOffT, rowOffM] [] rfl rfl

/-- Claim C4 as stated is false on the code: at a concrete run resolving to
the doordash store URL the classification is (true, false) as claimed, but
the note is not the claimed ASCII-hyphen string, because the source writes
a non-breaking hyphen (U+2011) inside third‑party. -/
theorem C4_counterexample :
    analyse_shops (some "k") netDoor wbW = .ok ([rowDoorT, rowDoorM], logW) ∧
    rowDoorT.website = some "https://www.doordash.com/store/123" ∧
    rowDoorT.hasWebsite = true ∧ rowDoorT.directOrdering = false ∧
    rowDoorT.note ≠ "Website appears to be third-party ordering" := by
  refine ⟨rfl, rfl, rfl, rfl, ?_⟩
  decide

/-- Claim C4 amended: every entity resolving to a website whose host is
www.doordash.com is classified (true, false) and its note is the exact
source string, which spells third‑party with a non-breaking hyphen. -/
theorem C4_doordash_note (apiKey : Option String) (net : Network)
    (wb : Workbook) (rows : List OutputRow) (log : List ApiCall)
    (r : OutputRow) (w nl : String)
    (h : analyse_shops apiKey net wb = .ok (rows, log)) (hr : r ∈ rows)
    (hw : r.website = some w) (hn : netlocExc w = some nl)
    (hh : strLower nl = "www.doordash.com") :
    r.hasWebsite = true ∧ r.directOrdering = false ∧
    r.note = "Website appears to be third‑party ordering" := by
  obtain ⟨base, hb, hrows, hlog⟩ := analyse_rows apiKey net wb rows log h
  subst hrows
  obtain ⟨x, hx, hxe⟩ := List.mem_map.mp hr
  rw [← hxe] at hw ⊢
  have hcls := classify_doordash_host w nl hn hh
  obtain ⟨h1, h2, h3⟩ := processRow_website apiKey net x w hw
  refine ⟨?_, ?_, h3 hcls⟩
  · rw [h1, hcls]
  · rw [h2, hcls]

/-- Witness for the amended C4 at the concrete doordash run. -/
theorem C4_doordash_note_witness :
    rowDoorT.hasWebsite = true ∧ rowDoorT.directOrdering = false ∧
    rowDoorT.note = "Website appears to be third‑party ordering" :=
  C4_doordash_note (some "k") netDoor wbW [rowDoorT, rowDoorM] logW rowDoorT
    "https://www.doordash.com/store/123" "www.doordash.com" rfl
    (List.mem_cons_self _ _) rfl rfl rfl

/-- Claim C8 as stated is false: the host wwwabc.com does not start with
the literal prefix "www.", yet the source normalisation removes its leading
characters, because the Python lstrip call trims by character set. -/
theorem C8_counterexample :
    startsWithStr "wwwabc.com" "www." = false ∧
    normalizeDomain "wwwabc.com" ≠ "wwwabc.com" ∧
    normalizeDomain "wwwabc.com" = "abc.com" := by
  decide

/-- Claim C8 amended: classify_website lower-cases the host and then strips
ALL leading characters drawn from the character set of "www." (the letter w
and the dot), so wwwabc.com becomes abc.com; the final classification
nevertheless agrees with the literal-prefix variant on every input, since
no aggregator domain starts with a stripped character. -/
theorem C8_lstrip_charset :
    normalizeDomain "wwwabc.com" = "abc.com" ∧
    (∀ w, classify_website w = classify_website_literal w) :=
  ⟨by decide, classify_eq_literal⟩

/-- Claim C10: a non-empty website string whose parsed host component is
empty — such as a bare domain without a scheme — is classified
(true, true): the aggregator suffix test runs against the empty host. -/
theorem C10_empty_host_direct (s : String) (hne : s ≠ "")
    (hh : netlocExc s = some "") :
    classify_website (some s) = (true, true) := by
  have hagg : isThirdParty (normalizeDomain "") = false := by decide
  simp only [classify_website, if_neg hne, hh, hagg, Bool.false_eq_true,
    if_false]

/-- Witness for C10 at the bare aggregator domain. -/
theorem C10_empty_host_direct_witness :
    classify_website (some "doordash.com") = (true, true) :=
  C10_empty_host_direct "doordash.com" (by decide) rfl

/-- Claim C5: the loader output has exactly one row per distinct
AccountName, each surviving row is the first occurrence of its name in the
concatenation of the sub-tables read in the fixed order, and the output
preserves first-seen order (it is a sublist of the concatenation). -/
theorem C5_dedup_keeps_first_in_order (wb : Workbook) (base rows : List Row)
    (hb : concatSheets wb = .ok base)
    (h : read_shops_from_excel wb = .ok rows) :
    (rows.map nameKey).Nodup ∧
    (∀ k, k ∈ base.map nameKey ↔ k ∈ rows.map nameKey) ∧
    (∀ r ∈ rows, base.find? (fun x => nameKey x == nameKey r) = some r) ∧
    rows.Sublist base := by
  have hrows : rows = drop_duplicates base := by
    rw [read_shops_from_excel, hb] at h
    simp only [Except.map, Except.ok.injEq] at h
    exact h.symm
  subst hrows
  refine ⟨dropDupGo_nodup [] base, ?_, ?_, dropDupGo_sublist [] base⟩
  · intro k
    constructor
    · intro hk
      exact dropDupGo_covers [] base k hk (List.not_mem_nil k)
    · intro hk
      exact ((dropDupGo_sublist [] base).map nameKey).subset hk
  · intro r hr
    exact (dropDupGo_spec [] base r hr).2

/-- Witness for C5 at the fixture workbook (duplicate Tony across the All
and OO Partners sheets). -/
theorem C5_dedup_keeps_first_in_order_witness :
    (rowsW.map nameKey).Nodup ∧
    (∀ k, k ∈ baseW.map nameKey ↔ k ∈ rowsW.map nameKey) ∧
    (∀ r ∈ rowsW, baseW.find? (fun x => nameKey x == nameKey r) = some r) ∧
    rowsW.Sublist baseW :=
  C5_dedup_keeps_first_in_order wbW baseW rowsW rfl rfl

/-- The failing workbook for C6: the All sheet is present but lacks the
Shop ID, Billing City and Billing Zip/Postal Code source columns. -/
def wbMissingCol : Workbook :=
  [("All", { cols := ["Account Name"], rows := [[("Account Name", some "T")]] })]

/-- Claim C6 is contradicted by the code: on a present sheet lacking some
of the known source columns the loader does not succeed — the column
selection list holds Python None placeholders for the absent names and
indexing the frame with that list raises KeyError. -/
theorem C6_missing_column_keyerror :
    read_shops_from_excel wbMissingCol =
      .error "KeyError: [None] not in index" := rfl

/-- A workbook containing none of the three configured sheets. -/
def wbNoSheets : Workbook := [("Sheet1", { cols := ["A"], rows := [] })]

/-- Claim C7 as stated is false for the all-absent case: with all three
sub-tables absent the loader does not return an (empty) result — pandas
concat of no frames raises ValueError. -/
theorem C7_counterexample :
    read_shops_from_excel wbNoSheets =
      .error "ValueError: No objects to concatenate" := rfl

/-- Does a present sheet survive the column subsetting. -/
def sheetOk (f : Frame) : Bool :=
  canonCols.all (fun c => (renameFrame f).cols.contains c)

/-- A sheet passing the column check is cleaned successfully. -/
theorem processSheet_ok (f : Frame) (hf : sheetOk f = true) :
    processSheet f =
      .ok (dropAllNa ((renameFrame f).rows.map restrictRow)) := by
  unfold sheetOk at hf
  unfold processSheet subsetColumns
  rw [if_pos hf]
  rfl

/-- Walking the sheet list succeeds when every present sheet passes the
column check, and yields a non-empty frame list when a sheet is present. -/
theorem gatherSheets_ok (wb : Workbook) (names : List String)
    (hok : ∀ s ∈ names, (wb.lookup s).all sheetOk = true) :
    ∃ dfs, gatherSheets wb names = .ok dfs ∧
      ((∃ s ∈ names, (wb.lookup s).isSome = true) → dfs ≠ []) := by
  induction names with
  | nil =>
    exact ⟨[], rfl, fun ⟨s, hs, _⟩ => absurd hs (List.not_mem_nil s)⟩
  | cons s rest ih =>
    have hrest : ∀ x ∈ rest, (wb.lookup x).all sheetOk = true :=
      fun x hx => hok x (List.mem_cons_of_mem _ hx)
    obtain ⟨dfs, hdfs, hne⟩ := ih hrest
    rcases hl : wb.lookup s with _ | f
    · refine ⟨dfs, ?_, ?_⟩
      · simp only [gatherSheets, hl]
        exact hdfs
      · rintro ⟨x, hx, hxs⟩
        rcases List.mem_cons.mp hx with rfl | hx
        · rw [hl] at hxs
          exact Bool.noConfusion hxs
        · exact hne ⟨x, hx, hxs⟩
    · have hofs : sheetOk f = true := by
        have hx := hok s (List.mem_cons_self s rest)
        rw [hl] at hx
        simpa using hx
      refine ⟨dropAllNa ((renameFrame f).rows.map restrictRow) :: dfs, ?_,
        fun _ => List.cons_ne_nil _ _⟩
      simp only [gatherSheets, hl, processSheet_ok f hofs, hdfs]
      rfl

/-- The loader consults only the three configured sheet names. -/
theorem gatherSheets_congr (wb wb' : Workbook) (names : List String)
    (hsame : ∀ s ∈ names, wb'.lookup s = wb.lookup s) :
    gatherSheets wb' names = gatherSheets wb names := by
  induction names with
  | nil => rfl
  | cons s rest ih =>
    have hs := hsame s (List.mem_cons_self s rest)
    have hrest : ∀ x ∈ rest, wb'.lookup x = wb.lookup x :=
      fun x hx => hsame x (List.mem_cons_of_mem _ hx)
    simp only [gatherSheets, hs, ih hrest]

/-- Claim C7 amended: an absent sub-table among the three configured ones
is silently skipped — the loader reads nothing but the three configured
lookups — and the loader succeeds whenever at least one of the three
sheets is present (and each present one passes the column selection); with
all three absent, concatenation raises instead. -/
theorem C7_absent_sheets_skipped (wb : Workbook)
    (hok : ∀ s ∈ sheetNames, (wb.lookup s).all sheetOk = true)
    (hp : ∃ s ∈ sheetNames, (wb.lookup s).isSome = true) :
    (∃ rows, read_shops_from_excel wb = .ok rows) ∧
    (∀ wb' : Workbook, (∀ s ∈ sheetNames, wb'.lookup s = wb.lookup s) →
      read_shops_from_excel wb' = read_shops_from_excel wb) := by
  constructor
  · obtain ⟨dfs, hdfs, hne⟩ := gatherSheets_ok wb sheetNames hok
    have hemp : dfs.isEmpty = false := by
      rw [List.isEmpty_eq_false]
      exact hne hp
    refine ⟨drop_duplicates dfs.flatten, ?_⟩
    rw [read_shops_from_excel, concatSheets, hdfs]
    simp only [hemp, Bool.false_eq_true, if_false]
    rfl
  · intro wb' hsame
    rw [read_shops_from_excel, read_shops_from_excel, concatSheets,
      concatSheets, gatherSheets_congr wb wb' sheetNames hsame]

/-- A workbook carrying only the All sheet. -/
def wbOnlyAll : Workbook :=
  [("All",
    { cols := ["Shop ID", "Account Name", "Billing City",
               "Billing Zip/Postal Code"],
      rows := [[("Shop ID", some "1"), ("Account Name", some "Tony"),
                ("Billing City", none),
                ("Billing Zip/Postal Code", none)]] })]

/-- Witness for the amended C7: two of the three sheets absent, the loader
still succeeds. -/
theorem C7_absent_sheets_skipped_witness :
    ∃ rows, read_shops_from_excel wbOnlyAll = .ok rows :=
  (C7_absent_sheets_skipped wbOnlyAll (by decide) (by decide)).1

/-- Appending on the left preserves the boolean prefix test. -/
theorem isPrefixOf_append_left (a b c : List Char) :
    (a ++ b).isPrefixOf (a ++ c) = b.isPrefixOf c := by
  rw [← Bool.coe_iff_coe]
  simp only [List.isPrefixOf_iff_prefix]
  exact List.prefix_append_right_inj a

/-- Claim C9: generate_messages is a pure function selecting exactly one of
three fixed templates by case on (has_website, direct_ordering); for every
name the no-website template has a subject containing custom website and an
SMS body beginning with the name followed by a colon. -/
theorem C9_generate_messages (name : String) (h d : Bool) :
    (generate_messages name h d = generate_messages name false false ∨
     generate_messages name h d = generate_messages name true false ∨
     generate_messages name h d = generate_messages name true true) ∧
    containsSub (generate_messages name false false).1 "custom website" = true ∧
    startsWithStr (generate_messages name false false).2.2 (name ++ ":") = true := by
  refine ⟨?_, ?_, ?_⟩
  · cases h <;> cases d
    · exact Or.inl rfl
    · exact Or.inl rfl
    · exact Or.inr (Or.inl rfl)
    · exact Or.inr (Or.inr rfl)
  · show containsSub
      "Grow your pizzeria with a custom website and phone ordering"
      "custom website" = true
    decide
  · show startsWithStr
      (name ++ ": We can build you a custom website and phone ordering " ++
        "solution through Slice, plus discounted delivery and a POS built for pizzerias.")
      (name ++ ":") = true
    unfold startsWithStr
    simp only [String.data_append, List.append_assoc]
    rw [isPrefixOf_append_left]
    decide

end PizzaShop
